import Mathlib

/-!
Verification of the schema-translation core of the universal AI proxy
(`src/index.ts`): Claude→OpenAI and Gemini→OpenAI request translation,
OpenAI→Claude and OpenAI→Gemini response translation, credential
extraction, token-ceiling clamping and the two HTTP handlers' pure
decision logic.  JavaScript `JSON.stringify` / `JSON.parse` are modelled
by an executable serializer and recursive-descent parser over an
inductive JSON value type (numbers are modelled as integers; the
serialized form carries no whitespace, exactly like `JSON.stringify`
output, and the parser handles that whitespace-free grammar).
-/

namespace Proxy

mutual
/-- JSON values, modelling the JavaScript values that flow through
`JSON.stringify`/`JSON.parse` in the source.  Arrays and objects are
mutual inductives so that recursion and induction stay structural. -/
inductive Json where
  | null : Json
  | bool (b : Bool) : Json
  | num (n : Int) : Json
  | str (s : String) : Json
  | arr (elems : JsonList) : Json
  | obj (fields : JsonFields) : Json

inductive JsonList where
  | nil : JsonList
  | cons (hd : Json) (tl : JsonList) : JsonList

inductive JsonFields where
  | nil : JsonFields
  | cons (key : String) (val : Json) (tl : JsonFields) : JsonFields
end

/-- The decimal digit character for `n < 10`. -/
def digitChar (n : Nat) : Char := Char.ofNat (48 + n)

/-- Fuel-driven decimal rendering of a natural number (most significant
digit first); fuel `n + 1` always suffices. -/
def natCharsAux : Nat → Nat → List Char
  | 0, _ => []
  | fuel + 1, n =>
    if n < 10 then [digitChar n]
    else natCharsAux fuel (n / 10) ++ [digitChar (n % 10)]

/-- Decimal rendering of a natural number. -/
def natChars (n : Nat) : List Char := natCharsAux (n + 1) n

/-- Decimal rendering of an integer, with a leading minus sign for
negative values, as `JSON.stringify` renders integral numbers. -/
def intChars (n : Int) : List Char :=
  if n < 0 then '-' :: natChars n.natAbs else natChars n.natAbs

/-- Lower-case hexadecimal digit character for `n < 16`. -/
def hexDigitChar (n : Nat) : Char :=
  if n < 10 then Char.ofNat (48 + n) else Char.ofNat (87 + n)

/-- The escape sequence `JSON.stringify` emits for one character of a
string: `"` and `\` get a backslash escape, the named control characters
get their two-character escapes, the remaining control characters get a
`\u00XX` escape, and every other character is emitted verbatim. -/
def escChar (c : Char) : List Char :=
  if c = '"' then ['\\', '"']
  else if c = '\\' then ['\\', '\\']
  else if c = '\n' then ['\\', 'n']
  else if c = '\r' then ['\\', 'r']
  else if c = '\t' then ['\\', 't']
  else if c = '\x08' then ['\\', 'b']
  else if c = '\x0c' then ['\\', 'f']
  else if c.toNat < 32 then
    ['\\', 'u', '0', '0', hexDigitChar (c.toNat / 16), hexDigitChar (c.toNat % 16)]
  else [c]

/-- Escape every character of a string body. -/
def escChars : List Char → List Char
  | [] => []
  | c :: rest => escChar c ++ escChars rest

mutual
/-- Serialization of JSON values, lists of values and object fields,
following `JSON.stringify` with no indentation argument: no whitespace,
`,` between elements, `"key":value` fields. -/
def serJson : Json → List Char
  | .null => ['n'] ++ ['u', 'l', 'l']
  | .bool true => ['t'] ++ ['r', 'u', 'e']
  | .bool false => ['f'] ++ ['a', 'l', 's', 'e']
  | .num n => intChars n
  | .str s => '"' :: (escChars s.data ++ ['"'])
  | .arr l => '[' :: (serList l ++ [']'])
  | .obj f => '\x7b' :: (serFields f ++ ['\x7d'])

def serList : JsonList → List Char
  | .nil => []
  | .cons hd tl => serJson hd ++ serListRest tl

def serListRest : JsonList → List Char
  | .nil => []
  | .cons hd tl => ',' :: (serJson hd ++ serListRest tl)

def serField (k : String) (v : Json) : List Char :=
  '"' :: (escChars k.data ++ ('"' :: ':' :: serJson v))

def serFields : JsonFields → List Char
  | .nil => []
  | .cons k v tl => serField k v ++ serFieldsRest tl

def serFieldsRest : JsonFields → List Char
  | .nil => []
  | .cons k v tl => ',' :: (serField k v ++ serFieldsRest tl)
end

/-- Model of `JSON.stringify` restricted to the values of `Json`. -/
def stringifyJson (v : Json) : String := String.mk (serJson v)

/-- Value of a hexadecimal digit character. -/
def hexVal (c : Char) : Option Nat :=
  if 48 ≤ c.toNat ∧ c.toNat ≤ 57 then some (c.toNat - 48)
  else if 97 ≤ c.toNat ∧ c.toNat ≤ 102 then some (c.toNat - 87)
  else if 65 ≤ c.toNat ∧ c.toNat ≤ 70 then some (c.toNat - 55)
  else none

/-- The character denoted by a two-character escape sequence. -/
def unescChar (c : Char) : Option Char :=
  if c = '"' then some '"'
  else if c = '\\' then some '\\'
  else if c = '/' then some '/'
  else if c = 'n' then some '\n'
  else if c = 'r' then some '\r'
  else if c = 't' then some '\t'
  else if c = 'b' then some '\x08'
  else if c = 'f' then some '\x0c'
  else none

/-- Parse the body of a JSON string (the opening quote already
consumed), returning the decoded characters and the rest of the
input after the closing quote. -/
def parseStringBody : List Char → Option (List Char × List Char)
  | [] => none
  | c :: rest =>
    if c = '"' then some ([], rest)
    else if c = '\\' then
      match rest with
      | [] => none
      | e :: rest2 =>
        if e = 'u' then
          match rest2 with
          | h1 :: h2 :: h3 :: h4 :: rest3 =>
            match hexVal h1, hexVal h2, hexVal h3, hexVal h4 with
            | some a, some b, some c2, some d =>
              (parseStringBody rest3).map fun p =>
                (Char.ofNat (((a * 16 + b) * 16 + c2) * 16 + d) :: p.1, p.2)
            | _, _, _, _ => none
          | _ => none
        else
          match unescChar e with
          | some u => (parseStringBody rest2).map fun p => (u :: p.1, p.2)
          | none => none
    else
      (parseStringBody rest).map fun p => (c :: p.1, p.2)

/-- Consume a maximal run of decimal digits, folding them onto `acc`. -/
def parseDigitsAux : List Char → Nat → Nat × List Char
  | [], acc => (acc, [])
  | c :: rest, acc =>
    if c.isDigit then parseDigitsAux rest (acc * 10 + (c.toNat - 48))
    else (acc, c :: rest)

/-- Parse the tail of a JSON array after the first element: either the
closing bracket, or `,` followed by a value and the rest.  The value
parser is passed in so that the whole parser recurses on fuel alone. -/
def parseListRestF (pv : List Char → Option (Json × List Char)) :
    Nat → List Char → Option (JsonList × List Char)
  | 0, _ => none
  | fuel + 1, input =>
    match input with
    | ']' :: rest => some (.nil, rest)
    | ',' :: rest =>
      (pv rest).bind fun p =>
        (parseListRestF pv fuel p.2).map fun q => (JsonList.cons p.1 q.1, q.2)
    | _ => none

/-- Parse a quoted object key followed by `:`. -/
def parseKeyColon : List Char → Option (String × List Char)
  | '"' :: rest =>
    (parseStringBody rest).bind fun p =>
      match p.2 with
      | ':' :: r2 => some (String.mk p.1, r2)
      | _ => none
  | _ => none

/-- Parse the tail of a JSON object after the first field. -/
def parseFieldsRestF (pv : List Char → Option (Json × List Char)) :
    Nat → List Char → Option (JsonFields × List Char)
  | 0, _ => none
  | fuel + 1, input =>
    match input with
    | '\x7d' :: rest => some (.nil, rest)
    | ',' :: rest =>
      (parseKeyColon rest).bind fun kp =>
        (pv kp.2).bind fun p =>
          (parseFieldsRestF pv fuel p.2).map fun q => (JsonFields.cons kp.1 p.1 q.1, q.2)
    | _ => none

/-- Check that the input starts with the given literal characters. -/
def expectChars : List Char → List Char → Option (List Char)
  | [], input => some input
  | c :: cs, input =>
    match input with
    | d :: rest => if d = c then expectChars cs rest else none
    | [] => none

/-- Recursive-descent JSON value parser, fuelled so that recursion is
structural on the fuel. -/
def parseVal : Nat → List Char → Option (Json × List Char)
  | 0, _ => none
  | fuel + 1, input =>
    match input with
    | [] => none
    | c :: rest =>
      if c = 'n' then (expectChars ['u', 'l', 'l'] rest).map (fun r => (Json.null, r))
      else if c = 't' then (expectChars ['r', 'u', 'e'] rest).map (fun r => (Json.bool true, r))
      else if c = 'f' then (expectChars ['a', 'l', 's', 'e'] rest).map (fun r => (Json.bool false, r))
      else if c = '"' then (parseStringBody rest).map (fun p => (Json.str (String.mk p.1), p.2))
      else if c = '-' then
        match rest with
        | d :: _ =>
          if d.isDigit then
            let p := parseDigitsAux rest 0
            some (Json.num (-(p.1 : Int)), p.2)
          else none
        | [] => none
      else if c.isDigit then
        let p := parseDigitsAux (c :: rest) 0
        some (Json.num (p.1 : Int), p.2)
      else if c = '[' then
        match rest with
        | [] => none
        | r1 :: rtl =>
          if r1 = ']' then some (Json.arr JsonList.nil, rtl)
          else
            (parseVal fuel (r1 :: rtl)).bind fun p =>
              (parseListRestF (fun s => parseVal fuel s) fuel p.2).map fun q =>
                (Json.arr (JsonList.cons p.1 q.1), q.2)
      else if c = '\x7b' then
        match rest with
        | [] => none
        | r1 :: rtl =>
          if r1 = '\x7d' then some (Json.obj JsonFields.nil, rtl)
          else
            (parseKeyColon (r1 :: rtl)).bind fun kp =>
              (parseVal fuel kp.2).bind fun p =>
                (parseFieldsRestF (fun s => parseVal fuel s) fuel p.2).map fun q =>
                  (Json.obj (JsonFields.cons kp.1 p.1 q.1), q.2)
      else none

/-- Model of `JSON.parse`: parse a complete JSON value, requiring that
the whole input is consumed.  `none` models a thrown `SyntaxError`. -/
def parseJsonStr (s : String) : Option Json :=
  match parseVal (s.data.length + 1) s.data with
  | some (v, []) => some v
  | _ => none

deriving instance DecidableEq for Json

/-- `true` when the input does not begin with a decimal digit, so that a
freshly parsed number cannot swallow following characters. -/
def noLeadDigit : List Char → Bool
  | [] => true
  | c :: _ => !c.isDigit

theorem digitChar_toNat (n : Nat) (h : n < 10) : (digitChar n).toNat = 48 + n := by
  interval_cases n <;> decide

theorem digitChar_isDigit (n : Nat) (h : n < 10) : (digitChar n).isDigit = true := by
  interval_cases n <;> decide

theorem parseDigitsAux_stop (rest : List Char) (acc : Nat) (h : noLeadDigit rest = true) :
    parseDigitsAux rest acc = (acc, rest) := by
  cases rest with
  | nil => rfl
  | cons c r =>
    simp only [noLeadDigit] at h
    simp at h
    simp [parseDigitsAux, h]

theorem parseDigitsAux_natCharsAux :
    ∀ (fuel n acc : Nat) (rest : List Char), n < fuel →
      parseDigitsAux (natCharsAux fuel n ++ rest) acc =
        parseDigitsAux rest (acc * 10 ^ (natCharsAux fuel n).length + n) := by
  intro fuel
  induction fuel with
  | zero => intro n acc rest h; omega
  | succ f ih =>
    intro n acc rest h
    by_cases h10 : n < 10
    · simp only [natCharsAux, if_pos h10]
      simp [parseDigitsAux, digitChar_isDigit n h10, digitChar_toNat n h10]
    · have hrec : n / 10 < f := by omega
      have hm : n % 10 < 10 := Nat.mod_lt _ (by omega)
      simp only [natCharsAux, if_neg h10, List.append_assoc, List.cons_append, List.nil_append]
      rw [ih (n / 10) acc (digitChar (n % 10) :: rest) hrec]
      have hstep : parseDigitsAux (digitChar (n % 10) :: rest)
            (acc * 10 ^ (natCharsAux f (n / 10)).length + n / 10) =
          parseDigitsAux rest ((acc * 10 ^ (natCharsAux f (n / 10)).length + n / 10) * 10
            + ((digitChar (n % 10)).toNat - 48)) := by
        simp [parseDigitsAux, digitChar_isDigit _ hm]
      rw [hstep, digitChar_toNat _ hm]
      congr 1
      have h48 : 48 + n % 10 - 48 = n % 10 := by omega
      rw [h48]
      simp only [List.length_append, List.length_cons, List.length_nil, Nat.zero_add, pow_succ]
      generalize (10 : Nat) ^ (natCharsAux f (n / 10)).length = M
      have hd : n / 10 * 10 + n % 10 = n := by omega
      calc (acc * M + n / 10) * 10 + n % 10
          = acc * (M * 10) + (n / 10 * 10 + n % 10) := by ring
        _ = acc * (M * 10) + n := by rw [hd]

theorem parseDigitsAux_natChars (n : Nat) (rest : List Char) (h : noLeadDigit rest = true) :
    parseDigitsAux (natChars n ++ rest) 0 = (n, rest) := by
  rw [natChars, parseDigitsAux_natCharsAux (n + 1) n 0 rest (Nat.lt_succ_self n)]
  rw [Nat.zero_mul, Nat.zero_add, parseDigitsAux_stop rest n h]

theorem natCharsAux_head :
    ∀ (fuel n : Nat), n < fuel →
      ∃ d ds, natCharsAux fuel n = d :: ds ∧ d.isDigit = true := by
  intro fuel
  induction fuel with
  | zero => intro n h; omega
  | succ f ih =>
    intro n h
    by_cases h10 : n < 10
    · exact ⟨digitChar n, [], by simp [natCharsAux, h10], digitChar_isDigit n h10⟩
    · obtain ⟨d, ds, hds, hd⟩ := ih (n / 10) (by omega)
      exact ⟨d, ds ++ [digitChar (n % 10)], by simp [natCharsAux, h10, hds], hd⟩

theorem natChars_head (n : Nat) :
    ∃ d ds, natChars n = d :: ds ∧ d.isDigit = true :=
  natCharsAux_head (n + 1) n (Nat.lt_succ_self n)

theorem hexVal_hexDigitChar (m : Nat) (h : m < 16) : hexVal (hexDigitChar m) = some m := by
  interval_cases m <;> decide

theorem hexVal_zero : hexVal '0' = some 0 := by decide

theorem psb_quote (rest : List Char) : parseStringBody ('"' :: rest) = some ([], rest) := by
  rw [parseStringBody.eq_def]; simp

theorem psb_esc2 (e u : Char) (X : List Char) (hu : unescChar e = some u) (hne : ¬e = 'u') :
    parseStringBody ('\\' :: e :: X) = (parseStringBody X).map fun p => (u :: p.1, p.2) := by
  rw [parseStringBody.eq_def]; simp [hne, hu]

theorem psb_u (d1 d2 : Char) (a b : Nat) (X : List Char)
    (h1 : hexVal d1 = some a) (h2 : hexVal d2 = some b) :
    parseStringBody ('\\' :: 'u' :: '0' :: '0' :: d1 :: d2 :: X) =
      (parseStringBody X).map fun p =>
        (Char.ofNat (((0 * 16 + 0) * 16 + a) * 16 + b) :: p.1, p.2) := by
  rw [parseStringBody.eq_def]
  simp [h1, h2, hexVal_zero]

theorem psb_plain (c : Char) (X : List Char) (h1 : ¬c = '"') (h2 : ¬c = '\\') :
    parseStringBody (c :: X) = (parseStringBody X).map fun p => (c :: p.1, p.2) := by
  rw [parseStringBody.eq_def]; simp [h1, h2]

theorem parseStringBody_esc :
    ∀ (l rest : List Char), parseStringBody (escChars l ++ ('"' :: rest)) = some (l, rest) := by
  intro l
  induction l with
  | nil => intro rest; simpa [escChars] using psb_quote rest
  | cons c l ih =>
    intro rest
    have hshape : escChars (c :: l) ++ ('"' :: rest) =
        escChar c ++ (escChars l ++ ('"' :: rest)) := by
      simp [escChars]
    rw [hshape]
    by_cases h1 : c = '"'
    · subst h1
      rw [show escChar '"' = ['\\', '"'] from rfl]
      rw [show (['\\', '"'] : List Char) ++ (escChars l ++ ('"' :: rest)) =
        '\\' :: '"' :: (escChars l ++ ('"' :: rest)) from rfl]
      rw [psb_esc2 '"' '"' _ (by decide) (by decide), ih rest]; rfl
    · by_cases h2 : c = '\\'
      · subst h2
        rw [show escChar '\\' = ['\\', '\\'] from rfl]
        rw [show (['\\', '\\'] : List Char) ++ (escChars l ++ ('"' :: rest)) =
          '\\' :: '\\' :: (escChars l ++ ('"' :: rest)) from rfl]
        rw [psb_esc2 '\\' '\\' _ (by decide) (by decide), ih rest]; rfl
      · by_cases h3 : c = '\n'
        · subst h3
          rw [show escChar '\n' = ['\\', 'n'] from rfl]
          rw [show (['\\', 'n'] : List Char) ++ (escChars l ++ ('"' :: rest)) =
            '\\' :: 'n' :: (escChars l ++ ('"' :: rest)) from rfl]
          rw [psb_esc2 'n' '\n' _ (by decide) (by decide), ih rest]; rfl
        · by_cases h4 : c = '\r'
          · subst h4
            rw [show escChar '\r' = ['\\', 'r'] from rfl]
            rw [show (['\\', 'r'] : List Char) ++ (escChars l ++ ('"' :: rest)) =
              '\\' :: 'r' :: (escChars l ++ ('"' :: rest)) from rfl]
            rw [psb_esc2 'r' '\r' _ (by decide) (by decide), ih rest]; rfl
          · by_cases h5 : c = '\t'
            · subst h5
              rw [show escChar '\t' = ['\\', 't'] from rfl]
              rw [show (['\\', 't'] : List Char) ++ (escChars l ++ ('"' :: rest)) =
                '\\' :: 't' :: (escChars l ++ ('"' :: rest)) from rfl]
              rw [psb_esc2 't' '\t' _ (by decide) (by decide), ih rest]; rfl
            · by_cases h6 : c = '\x08'
              · subst h6
                rw [show escChar '\x08' = ['\\', 'b'] from rfl]
                rw [show (['\\', 'b'] : List Char) ++ (escChars l ++ ('"' :: rest)) =
                  '\\' :: 'b' :: (escChars l ++ ('"' :: rest)) from rfl]
                rw [psb_esc2 'b' '\x08' _ (by decide) (by decide), ih rest]; rfl
              · by_cases h7 : c = '\x0c'
                · subst h7
                  rw [show escChar '\x0c' = ['\\', 'f'] from rfl]
                  rw [show (['\\', 'f'] : List Char) ++ (escChars l ++ ('"' :: rest)) =
                    '\\' :: 'f' :: (escChars l ++ ('"' :: rest)) from rfl]
                  rw [psb_esc2 'f' '\x0c' _ (by decide) (by decide), ih rest]; rfl
                · by_cases h8 : c.toNat < 32
                  · have hesc : escChar c = ['\\', 'u', '0', '0',
                        hexDigitChar (c.toNat / 16), hexDigitChar (c.toNat % 16)] := by
                      simp [escChar, h1, h2, h3, h4, h5, h6, h7, h8]
                    rw [hesc]
                    rw [show (['\\', 'u', '0', '0', hexDigitChar (c.toNat / 16),
                          hexDigitChar (c.toNat % 16)] : List Char) ++ (escChars l ++ ('"' :: rest)) =
                      '\\' :: 'u' :: '0' :: '0' :: hexDigitChar (c.toNat / 16) ::
                        hexDigitChar (c.toNat % 16) :: (escChars l ++ ('"' :: rest)) from rfl]
                    rw [psb_u _ _ _ _ _ (hexVal_hexDigitChar _ (by omega))
                      (hexVal_hexDigitChar _ (by omega)), ih rest]
                    have hval : c.toNat / 16 * 16 + c.toNat % 16 = c.toNat := by omega
                    simp [hval, Char.ofNat_toNat]
                  · have hesc : escChar c = [c] := by
                      simp [escChar, h1, h2, h3, h4, h5, h6, h7, h8]
                    rw [hesc]
                    rw [show ([c] : List Char) ++ (escChars l ++ ('"' :: rest)) =
                      c :: (escChars l ++ ('"' :: rest)) from rfl]
                    rw [psb_plain c _ h1 h2, ih rest]; rfl

mutual
/-- Fuel requirement of the parser on serialized output: one unit per
composite node, so that `jsize v < fuel` guarantees the fuelled parser
never runs dry while consuming `serJson v`. -/
def jsize : Json → Nat
  | .null => 0
  | .bool _ => 0
  | .num _ => 0
  | .str _ => 0
  | .arr l => 1 + jsizeL l
  | .obj f => 1 + jsizeF f

def jsizeL : JsonList → Nat
  | .nil => 0
  | .cons hd tl => 1 + jsize hd + jsizeL tl

def jsizeF : JsonFields → Nat
  | .nil => 0
  | .cons _ v tl => 1 + jsize v + jsizeF tl
end

theorem isDigit_ne_of (d c : Char) (hd : d.isDigit = true) (hc : ¬c.isDigit = true) :
    ¬d = c := by
  intro he; exact hc (he ▸ hd)

theorem serJson_head (v : Json) : ∃ c cs, serJson v = c :: cs ∧ ¬c = ']' := by
  cases v with
  | null => exact ⟨'n', ['u', 'l', 'l'], by simp [serJson], by decide⟩
  | bool b => cases b with
    | true => exact ⟨'t', ['r', 'u', 'e'], by simp [serJson], by decide⟩
    | false => exact ⟨'f', ['a', 'l', 's', 'e'], by simp [serJson], by decide⟩
  | num n =>
    by_cases hn : n < 0
    · exact ⟨'-', natChars n.natAbs, by simp [serJson, intChars, hn], by decide⟩
    · obtain ⟨d, ds, hds, hd⟩ := natChars_head n.natAbs
      exact ⟨d, ds, by simp [serJson, intChars, hn, hds], isDigit_ne_of d ']' hd (by decide)⟩
  | str sx => exact ⟨'"', escChars sx.data ++ ['"'], by simp [serJson], by decide⟩
  | arr l => exact ⟨'[', serList l ++ [']'], by simp [serJson], by decide⟩
  | obj f => exact ⟨'\x7b', serFields f ++ ['\x7d'], by simp [serJson], by decide⟩

theorem noLeadDigit_serListRest (l : JsonList) (r : List Char) :
    noLeadDigit (serListRest l ++ (']' :: r)) = true := by
  cases l <;> simp [serListRest, noLeadDigit]

theorem noLeadDigit_serFieldsRest (f : JsonFields) (r : List Char) :
    noLeadDigit (serFieldsRest f ++ ('\x7d' :: r)) = true := by
  cases f <;> simp [serFieldsRest, serField, noLeadDigit]

theorem pv_null (fuel : Nat) (X : List Char) :
    parseVal (fuel + 1) ('n' :: X) =
      (expectChars ['u', 'l', 'l'] X).map (fun r => (Json.null, r)) := by
  rw [parseVal.eq_def]; simp

theorem pv_true (fuel : Nat) (X : List Char) :
    parseVal (fuel + 1) ('t' :: X) =
      (expectChars ['r', 'u', 'e'] X).map (fun r => (Json.bool true, r)) := by
  rw [parseVal.eq_def]; simp

theorem pv_false (fuel : Nat) (X : List Char) :
    parseVal (fuel + 1) ('f' :: X) =
      (expectChars ['a', 'l', 's', 'e'] X).map (fun r => (Json.bool false, r)) := by
  rw [parseVal.eq_def]; simp

theorem pv_str (fuel : Nat) (X : List Char) :
    parseVal (fuel + 1) ('"' :: X) =
      (parseStringBody X).map (fun p => (Json.str (String.mk p.1), p.2)) := by
  rw [parseVal.eq_def]; simp

theorem pv_num_pos (fuel : Nat) (d : Char) (X : List Char) (hd : d.isDigit = true) :
    parseVal (fuel + 1) (d :: X) =
      some (Json.num ((parseDigitsAux (d :: X) 0).1 : Int), (parseDigitsAux (d :: X) 0).2) := by
  rw [parseVal.eq_def]
  simp [isDigit_ne_of d 'n' hd (by decide), isDigit_ne_of d 't' hd (by decide),
    isDigit_ne_of d 'f' hd (by decide), isDigit_ne_of d '"' hd (by decide),
    isDigit_ne_of d '-' hd (by decide), hd]

theorem pv_num_neg (fuel : Nat) (d : Char) (X : List Char) (hd : d.isDigit = true) :
    parseVal (fuel + 1) ('-' :: d :: X) =
      some (Json.num (-((parseDigitsAux (d :: X) 0).1 : Int)), (parseDigitsAux (d :: X) 0).2) := by
  rw [parseVal.eq_def]
  simp [hd]

theorem pv_arr_nil (fuel : Nat) (X : List Char) :
    parseVal (fuel + 1) ('[' :: ']' :: X) = some (Json.arr JsonList.nil, X) := by
  rw [parseVal.eq_def]; simp

theorem pv_arr_cons (fuel : Nat) (rest0 : List Char) (r1 : Char) (rtl : List Char)
    (h0 : rest0 = r1 :: rtl) (hr1 : ¬r1 = ']') :
    parseVal (fuel + 1) ('[' :: rest0) =
      (parseVal fuel rest0).bind fun p =>
        (parseListRestF (fun s => parseVal fuel s) fuel p.2).map fun q =>
          (Json.arr (JsonList.cons p.1 q.1), q.2) := by
  subst h0
  rw [parseVal.eq_def]; simp [hr1]

theorem pv_obj_nil (fuel : Nat) (X : List Char) :
    parseVal (fuel + 1) ('\x7b' :: '\x7d' :: X) = some (Json.obj JsonFields.nil, X) := by
  rw [parseVal.eq_def]; simp

theorem pv_obj_cons (fuel : Nat) (rest0 : List Char) (r1 : Char) (rtl : List Char)
    (h0 : rest0 = r1 :: rtl) (hr1 : ¬r1 = '\x7d') :
    parseVal (fuel + 1) ('\x7b' :: rest0) =
      (parseKeyColon rest0).bind fun kp =>
        (parseVal fuel kp.2).bind fun p =>
          (parseFieldsRestF (fun s => parseVal fuel s) fuel p.2).map fun q =>
            (Json.obj (JsonFields.cons kp.1 p.1 q.1), q.2) := by
  subst h0
  rw [parseVal.eq_def]; simp [hr1]

theorem plrf_rbracket (pv : List Char → Option (Json × List Char)) (fuel : Nat) (X : List Char) :
    parseListRestF pv (fuel + 1) (']' :: X) = some (JsonList.nil, X) := by
  rw [parseListRestF.eq_def]; simp

theorem plrf_comma (pv : List Char → Option (Json × List Char)) (fuel : Nat) (X : List Char) :
    parseListRestF pv (fuel + 1) (',' :: X) =
      (pv X).bind fun p =>
        (parseListRestF pv fuel p.2).map fun q => (JsonList.cons p.1 q.1, q.2) := by
  rw [parseListRestF.eq_def]; simp

theorem pfrf_rbrace (pv : List Char → Option (Json × List Char)) (fuel : Nat) (X : List Char) :
    parseFieldsRestF pv (fuel + 1) ('\x7d' :: X) = some (JsonFields.nil, X) := by
  rw [parseFieldsRestF.eq_def]; simp

theorem pfrf_comma (pv : List Char → Option (Json × List Char)) (fuel : Nat) (X : List Char) :
    parseFieldsRestF pv (fuel + 1) (',' :: X) =
      (parseKeyColon X).bind fun kp =>
        (pv kp.2).bind fun p =>
          (parseFieldsRestF pv fuel p.2).map fun q => (JsonFields.cons kp.1 p.1 q.1, q.2) := by
  rw [parseFieldsRestF.eq_def]; simp

theorem parseKeyColon_ser (k : String) (Y : List Char) :
    parseKeyColon ('"' :: (escChars k.data ++ ('"' :: ':' :: Y))) = some (k, Y) := by
  rw [parseKeyColon.eq_def]
  simp only []
  rw [show escChars k.data ++ ('"' :: ':' :: Y) = escChars k.data ++ ('"' :: (':' :: Y)) from rfl]
  rw [parseStringBody_esc k.data (':' :: Y)]
  simp

theorem optBind_some {A B : Type} (a : A) (f : A → Option B) : (some a).bind f = f a := rfl

theorem optMap_some {A B : Type} (a : A) (f : A → B) : (some a).map f = some (f a) := rfl

theorem expectChars_exact : ∀ (cs X : List Char), expectChars cs (cs ++ X) = some X := by
  intro cs
  induction cs with
  | nil => intro X; simp [expectChars]
  | cons c cs ih => intro X; simp [expectChars, ih]

theorem parseListRestF_ser (fv : Nat)
    (hpv : ∀ v rest, jsize v < fv → noLeadDigit rest = true →
      parseVal fv (serJson v ++ rest) = some (v, rest)) :
    ∀ (fr : Nat) (l : JsonList) (rest : List Char),
      jsizeL l < fr → jsizeL l ≤ fv → noLeadDigit rest = true →
      parseListRestF (fun s => parseVal fv s) fr (serListRest l ++ (']' :: rest)) =
        some (l, rest) := by
  intro fr
  induction fr with
  | zero => intro l rest hfr hfv hnd; omega
  | succ fr2 ih =>
    intro l rest hfr hfv hnd
    cases l with
    | nil =>
      rw [show serListRest JsonList.nil ++ (']' :: rest) = ']' :: rest by simp [serListRest]]
      exact plrf_rbracket _ _ _
    | cons hd tl =>
      simp only [jsizeL] at hfr hfv
      rw [show serListRest (JsonList.cons hd tl) ++ (']' :: rest) =
        ',' :: (serJson hd ++ (serListRest tl ++ (']' :: rest))) by
          simp [serListRest]]
      rw [plrf_comma]
      rw [hpv hd _ (by omega) (noLeadDigit_serListRest tl rest)]
      rw [optBind_some]
      rw [ih tl rest (by omega) (by omega) hnd]
      rfl

theorem parseFieldsRestF_ser (fv : Nat)
    (hpv : ∀ v rest, jsize v < fv → noLeadDigit rest = true →
      parseVal fv (serJson v ++ rest) = some (v, rest)) :
    ∀ (fr : Nat) (fs : JsonFields) (rest : List Char),
      jsizeF fs < fr → jsizeF fs ≤ fv → noLeadDigit rest = true →
      parseFieldsRestF (fun s => parseVal fv s) fr (serFieldsRest fs ++ ('\x7d' :: rest)) =
        some (fs, rest) := by
  intro fr
  induction fr with
  | zero => intro fs rest hfr hfv hnd; omega
  | succ fr2 ih =>
    intro fs rest hfr hfv hnd
    cases fs with
    | nil =>
      rw [show serFieldsRest JsonFields.nil ++ ('\x7d' :: rest) = '\x7d' :: rest by
        simp [serFieldsRest]]
      exact pfrf_rbrace _ _ _
    | cons k v tl =>
      simp only [jsizeF] at hfr hfv
      rw [show serFieldsRest (JsonFields.cons k v tl) ++ ('\x7d' :: rest) =
        ',' :: ('"' :: (escChars k.data ++ ('"' :: ':' ::
          (serJson v ++ (serFieldsRest tl ++ ('\x7d' :: rest)))))) by
          simp [serFieldsRest, serField]]
      rw [pfrf_comma]
      rw [parseKeyColon_ser k (serJson v ++ (serFieldsRest tl ++ ('\x7d' :: rest)))]
      rw [optBind_some]
      rw [hpv v _ (by omega) (noLeadDigit_serFieldsRest tl rest)]
      rw [optBind_some]
      rw [ih tl rest (by omega) (by omega) hnd]
      rfl

theorem parseVal_ser :
    ∀ (fuel : Nat) (v : Json) (rest : List Char), jsize v < fuel → noLeadDigit rest = true →
      parseVal fuel (serJson v ++ rest) = some (v, rest) := by
  intro fuel
  induction fuel with
  | zero => intro v rest h _; omega
  | succ f ih =>
    intro v rest hs hr
    cases v with
    | null =>
      rw [show serJson Json.null ++ rest = 'n' :: (['u', 'l', 'l'] ++ rest) by simp [serJson]]
      rw [pv_null, expectChars_exact]
      rfl
    | bool b =>
      cases b with
      | true =>
        rw [show serJson (Json.bool true) ++ rest = 't' :: (['r', 'u', 'e'] ++ rest) by
          simp [serJson]]
        rw [pv_true, expectChars_exact]
        rfl
      | false =>
        rw [show serJson (Json.bool false) ++ rest = 'f' :: (['a', 'l', 's', 'e'] ++ rest) by
          simp [serJson]]
        rw [pv_false, expectChars_exact]
        rfl
    | str sx =>
      rw [show serJson (Json.str sx) ++ rest = '"' :: (escChars sx.data ++ ('"' :: rest)) by
        simp [serJson]]
      rw [pv_str, parseStringBody_esc]
      rfl
    | num n =>
      obtain ⟨d, ds, hds, hd⟩ := natChars_head n.natAbs
      have hpd := parseDigitsAux_natChars n.natAbs rest hr
      rw [hds] at hpd
      simp only [List.cons_append] at hpd
      by_cases hn : n < 0
      · rw [show serJson (Json.num n) ++ rest = '-' :: d :: (ds ++ rest) by
          simp [serJson, intChars, hn, hds]]
        rw [pv_num_neg f d (ds ++ rest) hd, hpd]
        have hval : (-((n.natAbs : Nat) : Int)) = n := by omega
        rw [hval]
      · rw [show serJson (Json.num n) ++ rest = d :: (ds ++ rest) by
          simp [serJson, intChars, hn, hds]]
        rw [pv_num_pos f d (ds ++ rest) hd, hpd]
        have hval : (((n.natAbs : Nat) : Int)) = n := by omega
        rw [hval]
    | arr l =>
      cases l with
      | nil =>
        rw [show serJson (Json.arr JsonList.nil) ++ rest = '[' :: ']' :: rest by
          simp [serJson, serList]]
        exact pv_arr_nil f rest
      | cons hd tl =>
        simp only [jsize, jsizeL] at hs
        obtain ⟨c1, cs1, hc1, hne⟩ := serJson_head hd
        rw [show serJson (Json.arr (JsonList.cons hd tl)) ++ rest =
          '[' :: (serJson hd ++ (serListRest tl ++ (']' :: rest))) by
            simp [serJson, serList]]
        rw [pv_arr_cons f (serJson hd ++ (serListRest tl ++ (']' :: rest)))
          c1 (cs1 ++ (serListRest tl ++ (']' :: rest))) (by rw [hc1]; rfl) hne]
        rw [ih hd _ (by omega) (noLeadDigit_serListRest tl rest)]
        rw [optBind_some]
        rw [parseListRestF_ser f ih f tl rest (by omega) (by omega) hr]
        rfl
    | obj fs =>
      cases fs with
      | nil =>
        rw [show serJson (Json.obj JsonFields.nil) ++ rest = '\x7b' :: '\x7d' :: rest by
          simp [serJson, serFields]]
        exact pv_obj_nil f rest
      | cons k v tl =>
        simp only [jsize, jsizeF] at hs
        rw [show serJson (Json.obj (JsonFields.cons k v tl)) ++ rest =
          '\x7b' :: ('"' :: (escChars k.data ++ ('"' :: ':' ::
            (serJson v ++ (serFieldsRest tl ++ ('\x7d' :: rest)))))) by
            simp [serJson, serFields, serField]]
        rw [pv_obj_cons f ('"' :: (escChars k.data ++ ('"' :: ':' ::
            (serJson v ++ (serFieldsRest tl ++ ('\x7d' :: rest))))))
          '"' (escChars k.data ++ ('"' :: ':' ::
            (serJson v ++ (serFieldsRest tl ++ ('\x7d' :: rest))))) rfl (by decide)]
        rw [parseKeyColon_ser k (serJson v ++ (serFieldsRest tl ++ ('\x7d' :: rest)))]
        rw [optBind_some]
        rw [ih v _ (by omega) (noLeadDigit_serFieldsRest tl rest)]
        rw [optBind_some]
        rw [parseFieldsRestF_ser f ih f tl rest (by omega) (by omega) hr]
        rfl

mutual
theorem jsize_le_len : ∀ (v : Json), jsize v ≤ (serJson v).length
  | .null => by simp [jsize, serJson]
  | .bool true => by simp [jsize, serJson]
  | .bool false => by simp [jsize, serJson]
  | .num n => by simp [jsize]
  | .str sx => by simp [jsize]
  | .arr .nil => by simp [jsize, jsizeL, serJson, serList]
  | .arr (.cons hd tl) => by
      have ha := jsize_le_len hd
      have hb := jsizeL_le_lenRest tl
      simp only [jsize, jsizeL, serJson, serList, List.length_cons, List.length_append]
      omega
  | .obj .nil => by simp [jsize, jsizeF, serJson, serFields]
  | .obj (.cons k v tl) => by
      have ha := jsize_le_len v
      have hb := jsizeF_le_lenRest tl
      simp only [jsize, jsizeF, serJson, serFields, serField, List.length_cons,
        List.length_append]
      omega

theorem jsizeL_le_lenRest : ∀ (l : JsonList), jsizeL l ≤ (serListRest l).length
  | .nil => by simp [jsizeL, serListRest]
  | .cons hd tl => by
      have ha := jsize_le_len hd
      have hb := jsizeL_le_lenRest tl
      simp only [jsizeL, serListRest, List.length_cons, List.length_append]
      omega

theorem jsizeF_le_lenRest : ∀ (f : JsonFields), jsizeF f ≤ (serFieldsRest f).length
  | .nil => by simp [jsizeF, serFieldsRest]
  | .cons k v tl => by
      have ha := jsize_le_len v
      have hb := jsizeF_le_lenRest tl
      simp only [jsizeF, serFieldsRest, serField, List.length_cons, List.length_append]
      omega
end

/-- `JSON.parse` inverts `JSON.stringify` on every JSON value: the
serialized arguments string always parses back to the original value. -/
theorem parseJsonStr_stringify (v : Json) : parseJsonStr (stringifyJson v) = some v := by
  have hlen : jsize v < (serJson v).length + 1 := by
    have := jsize_le_len v; omega
  have h := parseVal_ser ((serJson v).length + 1) v [] hlen rfl
  rw [List.append_nil] at h
  simp only [parseJsonStr]
  rw [show (stringifyJson v).data = serJson v from rfl]
  rw [h]

/-! ## Data model of the three wire protocols (from the interfaces and
translator functions of `src/index.ts`) -/

/-- The `function` payload of an OpenAI tool call: the JSON-encoded
arguments travel as a string. -/
structure OAIFunc where
  name : String
  arguments : String
deriving DecidableEq

/-- An OpenAI tool call (`{id, type: "function", function}`). -/
structure ToolCall where
  id : String
  type : String
  function : OAIFunc
deriving DecidableEq

/-- Claude content blocks: the tagged union of `ContentBlock`,
`ToolUseBlock` and `ToolResultBlock` from the source. -/
inductive ClaudeBlock where
  | text (text : String)
  | toolUse (id : String) (name : String) (input : Json)
  | toolResult (tool_use_id : String) (content : Json)
deriving DecidableEq

/-- `MessageContent`: a plain string or a block sequence. -/
inductive MessageContent where
  | str (s : String)
  | blocks (bs : List ClaudeBlock)
deriving DecidableEq

/-- A Claude message. -/
structure Message where
  role : String
  content : MessageContent
deriving DecidableEq

/-- A Claude tool declaration. -/
structure Tool where
  name : String
  description : Option String
  input_schema : Json

/-- Claude `tool_choice`: a plain string or `{type, name?}`. -/
inductive ToolChoiceVal where
  | strVal (s : String)
  | objVal (type : String) (name : Option String)

/-- A Claude Messages request (the fields the handler reads). -/
structure MessagesRequest where
  model : String
  messages : List Message
  max_tokens : Option Int
  temperature : Option Int
  tools : Option (List Tool)
  tool_choice : Option ToolChoiceVal

/-- Flattened OpenAI chat message produced by `convertMessages`. -/
structure SimpleMsg where
  role : String
  content : String
deriving DecidableEq

/-- An OpenAI function-tool descriptor (`{type, function}`). -/
structure OAIFuncDef where
  name : String
  description : String
  parameters : Json

structure OAITool where
  type : String
  function : OAIFuncDef

/-- JavaScript `Array.prototype.join(sep)`. -/
def joinSep (sep : String) : List String → String
  | [] => ""
  | [t] => t
  | t :: rest => t ++ sep ++ joinSep sep rest

/-- The string one Claude content block contributes to the flattened
message (`convertMessages`, lines 168-179). -/
def flattenBlock : ClaudeBlock → String
  | .text t => t
  | .toolUse _ name input => "[Tool Use: " ++ name ++ "] " ++ stringifyJson input
  | .toolResult _ content => "<tool_result>" ++ stringifyJson content ++ "</tool_result>"

/-- `convertMessages` (lines 163-183): Claude messages to flat OpenAI
`{role, content}` records. -/
def convertMessages (msgs : List Message) : List SimpleMsg :=
  msgs.map fun m =>
    match m.content with
    | .str s => { role := m.role, content := s }
    | .blocks bs => { role := m.role, content := joinSep "\n" (bs.map flattenBlock) }

/-- `convertTools` (lines 188-197). -/
def convertTools (tools : List Tool) : List OAITool :=
  tools.map fun t =>
    { type := "function",
      function := { name := t.name, description := t.description.getD "",
                    parameters := t.input_schema } }

/-- `convertToolCallsToAnthropic` (lines 202-218); `none` models the
`JSON.parse` exception escaping on malformed arguments. -/
def convertToolCallsToAnthropic : List ToolCall → Option (List ClaudeBlock)
  | [] => some []
  | call :: rest =>
    match parseJsonStr call.function.arguments with
    | some args =>
      match convertToolCallsToAnthropic rest with
      | some content => some (ClaudeBlock.toolUse call.id call.function.name args :: content)
      | none => none
    | none => none

/-- The message inside one OpenAI completion choice. -/
structure OAIRespMessage where
  content : Option String
  tool_calls : Option (List ToolCall)
deriving DecidableEq

structure OAIChoice where
  message : OAIRespMessage
  finish_reason : String

structure Usage where
  prompt_tokens : Int
  completion_tokens : Int
  total_tokens : Int

structure OAIResponse where
  choices : List OAIChoice
  usage : Option Usage

/-- The content/stop_reason dispatch of the Claude handler
(lines 385-394): `if (msg.tool_calls)` is a JavaScript truthiness test,
so a present-but-empty array still selects the tool-use branch; only an
absent (or null) field selects the text branch. -/
def claudeContentAndStop (msg : OAIRespMessage) : Option (List ClaudeBlock × String) :=
  match msg.tool_calls with
  | some calls =>
    match convertToolCallsToAnthropic calls with
    | some content => some (content, "tool_use")
    | none => none
  | none => some ([ClaudeBlock.text (msg.content.getD "")], "end_turn")

structure ClaudeUsage where
  input_tokens : Int
  output_tokens : Int

structure ClaudeResponse where
  id : String
  model : String
  role : String
  type : String
  content : List ClaudeBlock
  stop_reason : String
  stop_sequence : Option String
  usage : ClaudeUsage

/-- A Gemini `functionCall` part payload. -/
structure FunctionCall where
  name : String
  args : Json
deriving DecidableEq

structure InlineData where
  mimeType : String
  data : String

structure FunctionResponse where
  name : String
  response : Json

/-- A Gemini part: all four optional fields of the source interface. -/
structure GeminiPart where
  text : Option String := none
  inlineData : Option InlineData := none
  functionCall : Option FunctionCall := none
  functionResponse : Option FunctionResponse := none

structure GeminiContent where
  role : String
  parts : List GeminiPart

structure GenerationConfig where
  temperature : Option Int := none
  maxOutputTokens : Option Int := none

structure GeminiFuncDecl where
  name : String
  description : String
  parameters : Json

structure GeminiToolGroup where
  function_declarations : List GeminiFuncDecl

structure GeminiRequest where
  contents : List GeminiContent
  generationConfig : Option GenerationConfig := none
  tools : Option (List GeminiToolGroup) := none

/-- An OpenAI chat message as built by `convertGeminiToOpenAI`:
`content` may be `null` (here `none`) and `tool_calls` is only attached
when calls were produced. -/
structure OAIMessage where
  role : String
  content : Option String
  tool_calls : Option (List ToolCall) := none
deriving DecidableEq

/-- Role mapping of `convertGeminiToOpenAI` (line 229). -/
def geminiRole (r : String) : String := if r = "model" then "assistant" else r

/-- Whether a part takes the `if (part.text)` branch: the text field is
present and truthy (non-empty). -/
def partTakesText (p : GeminiPart) : Bool :=
  match p.text with
  | some t => if t = "" then false else true
  | none => false

/-- The text strings collected from a content entry, in order
(lines 236-238): parts whose `text` is absent or empty are skipped. -/
def geminiTextParts (ps : List GeminiPart) : List String :=
  ps.filterMap fun p =>
    match p.text with
    | some t => if t = "" then none else some t
    | none => none

/-- The function calls collected from a content entry, in order
(lines 239-248): only parts that do not take the text branch and carry a
`functionCall` contribute. -/
def geminiCallParts (ps : List GeminiPart) : List FunctionCall :=
  ps.filterMap fun p => if partTakesText p then none else p.functionCall

/-- Tool calls synthesized for the collected function calls; `ids k` is
the random suffix `Math.random().toString(36).substring(2, 15)` drawn
for the `k`-th call of the request. -/
def mkToolCalls (ids : Nat → String) : Nat → List FunctionCall → List ToolCall
  | _, [] => []
  | k, fc :: rest =>
    { id := "call_" ++ ids k, type := "function",
      function := { name := fc.name, arguments := stringifyJson fc.args } }
      :: mkToolCalls ids (k + 1) rest

/-- One Gemini content entry to one OpenAI message (lines 227-263):
text parts joined with a newline; if tool calls exist they are attached
and a falsy (empty) content is replaced by `null`. -/
def mkGeminiMessage (ids : Nat → String) (k : Nat) (c : GeminiContent) : OAIMessage :=
  let ts := geminiTextParts c.parts
  let fcs := geminiCallParts c.parts
  let contentStr := if ts.length > 0 then joinSep "\n" ts else ""
  if fcs.length > 0 then
    { role := geminiRole c.role,
      content := if contentStr = "" then none else some contentStr,
      tool_calls := some (mkToolCalls ids k fcs) }
  else
    { role := geminiRole c.role, content := some contentStr, tool_calls := none }

/-- The message loop of `convertGeminiToOpenAI`, threading the count of
synthesized ids. -/
def convertContents (ids : Nat → String) : Nat → List GeminiContent → List OAIMessage
  | _, [] => []
  | k, c :: rest =>
    mkGeminiMessage ids k c :: convertContents ids (k + (geminiCallParts c.parts).length) rest

structure GeminiConvResult where
  messages : List OAIMessage
  tools : Option (List OAITool)
  max_tokens : Option Int
  temperature : Option Int

/-- `convertGeminiToOpenAI` (lines 223-286). -/
def convertGeminiToOpenAI (ids : Nat → String) (req : GeminiRequest) : GeminiConvResult :=
  { messages := convertContents ids 0 req.contents,
    tools :=
      match req.tools with
      | some ts =>
        if ts.length > 0 then
          some ((ts.map fun tg => tg.function_declarations.map fun fd =>
            ({ type := "function",
               function := { name := fd.name, description := fd.description,
                             parameters := fd.parameters } } : OAITool)).flatten)
        else none
      | none => none,
    max_tokens := req.generationConfig.bind fun g => g.maxOutputTokens,
    temperature := req.generationConfig.bind fun g => g.temperature }

structure GeminiCandidate where
  content : GeminiContent
  finishReason : String
  index : Int

structure UsageMetadata where
  promptTokenCount : Int
  candidatesTokenCount : Int
  totalTokenCount : Int

structure GeminiResponse where
  candidates : List GeminiCandidate
  usageMetadata : UsageMetadata
  modelVersion : String

/-- The function-call parts produced from `message.tool_calls`
(lines 303-313); `none` models the `JSON.parse` exception. -/
def toolCallsToParts : List ToolCall → Option (List GeminiPart)
  | [] => some []
  | tc :: rest =>
    match parseJsonStr tc.function.arguments with
    | some args =>
      match toolCallsToParts rest with
      | some ps =>
        some (({ functionCall := some { name := tc.function.name, args := args } } : GeminiPart)
          :: ps)
      | none => none
    | none => none

/-- The finish-reason ternary of `convertOpenAIToGemini`
(lines 321-322). -/
def mapFinishReason (r : String) : String :=
  if r = "tool_calls" then "STOP" else if r = "length" then "MAX_TOKENS" else "STOP"

/-- `convertOpenAIToGemini` (lines 291-332); `none` models the exception
path (no choice, or malformed tool-call arguments). -/
def convertOpenAIToGemini (resp : OAIResponse) (originalModel : String) :
    Option GeminiResponse :=
  match resp.choices with
  | [] => none
  | choice :: _ =>
    let message := choice.message
    let textParts : List GeminiPart :=
      match message.content with
      | some s => if s = "" then [] else [{ text := some s }]
      | none => []
    match (match message.tool_calls with
           | some calls => toolCallsToParts calls
           | none => some []) with
    | none => none
    | some callParts =>
      some { candidates := [{
               content := { parts := textParts ++ callParts, role := "model" },
               finishReason := mapFinishReason choice.finish_reason,
               index := 0 }],
             usageMetadata := {
               promptTokenCount :=
                 match resp.usage with | some u => u.prompt_tokens | none => 0,
               candidatesTokenCount :=
                 match resp.usage with | some u => u.completion_tokens | none => 0,
               totalTokenCount :=
                 match resp.usage with | some u => u.total_tokens | none => 0 },
             modelVersion := originalModel }

/-! ## Credential extraction, provider configuration and the handlers'
pure decision logic -/

/-- Resolved provider configuration (the `Provider` interface);
resolution from environment variables is an external collaborator, so
handlers receive the record directly. -/
structure Provider where
  name : String
  baseURL : String
  models : List String
  maxTokens : Int

/-- JavaScript `String.prototype.startsWith`. -/
def strStartsWith (s pre : String) : Bool := pre.data.isPrefixOf s.data

/-- JavaScript `String.prototype.slice(n)` for a non-negative index. -/
def strDrop (s : String) (n : Nat) : String := String.mk (s.data.drop n)

/-- `extractApiKey` (lines 148-156).  `if (!authorization)` is a
truthiness test, so the empty string is rejected exactly like an absent
header. -/
def extractApiKey (authorization : Option String) : Option String :=
  match authorization with
  | none => none
  | some s =>
    if s = "" then none
    else if strStartsWith s "Bearer " then some (strDrop s 7)
    else some s

/-- JavaScript `a || b` on optional strings (used to coalesce the two
credential headers). -/
def jsOrStr (a b : Option String) : Option String :=
  match a with
  | some s => if s = "" then b else some s
  | none => b

/-- JavaScript `x || d` on an optional number against an integer
default: `0` is falsy and selects the default. -/
def jsOrNum (x : Option Int) (d : Int) : Int :=
  match x with
  | some v => if v = 0 then d else v
  | none => d

/-- The token clamp used at both call sites (lines 356-359 and 439-442):
`Math.min(requested || ceiling, ceiling)`. -/
def effectiveMaxTokens (requested : Option Int) (ceiling : Int) : Int :=
  min (jsOrNum requested ceiling) ceiling

/-- Error envelopes: the flat Claude-path shape `{error: string}` and
the nested Gemini shape `{error: {code, message, status}}`. -/
inductive ErrorBody where
  | flat (message : String)
  | nested (code : Int) (message : String) (status : String)
deriving DecidableEq

/-- Outcome of a handler: a protocol response or an error with an HTTP
status. -/
inductive HandlerResult (A : Type) where
  | ok (body : A)
  | err (status : Int) (body : ErrorBody)

/-- The upstream chat-completions payload built by the Claude handler
(lines 370-378). -/
structure ClaudeChatReq where
  model : String
  messages : List SimpleMsg
  temperature : Option Int
  max_tokens : Int
  tools : Option (List OAITool)
  tool_choice : Option ToolChoiceVal
  stream : Bool

/-- The request the Claude handler sends upstream, with the
`Math.min(request.max_tokens || provider.maxTokens, provider.maxTokens)`
clamp of lines 356-359. -/
def claudeChatReqOf (req : MessagesRequest) (provider : Provider)
    (targetModel : String) : ClaudeChatReq :=
  { model := targetModel,
    messages := convertMessages req.messages,
    temperature := req.temperature,
    max_tokens := min (jsOrNum req.max_tokens provider.maxTokens) provider.maxTokens,
    tools := req.tools.map convertTools,
    tool_choice := req.tool_choice,
    stream := false }

/-- Pure decision logic of `app.post('/v1/messages')` (lines 338-415).
`upstream` is the external OpenAI client; `none` models a thrown or
failed call, caught by the surrounding `try`.  `uuid` is the random
message-id suffix. -/
def claudeHandler (uuid : String) (authH xApiKeyH : Option String) (req : MessagesRequest)
    (provider : Provider) (targetModel : String)
    (upstream : ClaudeChatReq → Option OAIResponse) : HandlerResult ClaudeResponse :=
  match extractApiKey (jsOrStr authH xApiKeyH) with
  | none => .err 401 (.flat "Missing API key in Authorization header or x-api-key header")
  | some _ =>
    match upstream (claudeChatReqOf req provider targetModel) with
    | none => .err 500 (.flat "Internal server error")
    | some completion =>
      match completion.choices with
      | [] => .err 500 (.flat "Internal server error")
      | choice :: _ =>
        match claudeContentAndStop choice.message with
        | none => .err 500 (.flat "Internal server error")
        | some (content, stopReason) =>
          .ok { id := "msg_" ++ uuid,
                model := provider.name ++ "/" ++ req.model,
                role := "assistant", type := "message",
                content := content, stop_reason := stopReason, stop_sequence := none,
                usage := {
                  input_tokens :=
                    match completion.usage with | some u => u.prompt_tokens | none => 0,
                  output_tokens :=
                    match completion.usage with | some u => u.completion_tokens | none => 0 } }

/-- The upstream chat-completions payload built by the Gemini handler
(lines 449-457). -/
structure GeminiChatReq where
  model : String
  messages : List OAIMessage
  temperature : Option Int
  max_tokens : Int
  tools : Option (List OAITool)
  tool_choice : String
  stream : Bool

/-- The request the Gemini handler sends upstream, with the clamp of
lines 439-442. -/
def geminiChatReqOf (ids : Nat → String) (req : GeminiRequest) (provider : Provider)
    (targetModel : String) : GeminiChatReq :=
  { model := targetModel,
    messages := (convertGeminiToOpenAI ids req).messages,
    temperature := (convertGeminiToOpenAI ids req).temperature,
    max_tokens := min (jsOrNum (convertGeminiToOpenAI ids req).max_tokens provider.maxTokens)
      provider.maxTokens,
    tools := (convertGeminiToOpenAI ids req).tools,
    tool_choice := "auto",
    stream := false }

/-- Pure decision logic of
`app.post('/v1beta/models/:model\\:generateContent')` (lines 420-474).
Note the missing-credential error is the flat shape (line 426); only the
catch handler uses the nested Gemini shape (lines 466-472). -/
def geminiHandler (ids : Nat → String) (authH googH : Option String) (model : String)
    (req : GeminiRequest) (provider : Provider) (targetModel : String)
    (upstream : GeminiChatReq → Option OAIResponse) : HandlerResult GeminiResponse :=
  match extractApiKey (jsOrStr authH googH) with
  | none => .err 401 (.flat "Missing API key in Authorization header or x-goog-api-key header")
  | some _ =>
    match upstream (geminiChatReqOf ids req provider targetModel) with
    | none => .err 500 (.nested 500 "Internal server error" "INTERNAL")
    | some completion =>
      match convertOpenAIToGemini completion model with
      | none => .err 500 (.nested 500 "Internal server error" "INTERNAL")
      | some g => .ok g

/-! ## Helper lemmas about the translators -/

theorem length_pos_of_ne_empty (s : String) (h : s ≠ "") : 0 < s.length := by
  cases s with
  | mk data =>
    cases data with
    | nil => exact absurd rfl h
    | cons c cs => simp [String.length]

theorem str_ne_empty_of_length (s : String) (h : 0 < s.length) : s ≠ "" := by
  intro he; subst he; simp at h

theorem joinSep_head_ne (sep t : String) (rest : List String) (ht : t ≠ "") :
    joinSep sep (t :: rest) ≠ "" := by
  cases rest with
  | nil => simpa [joinSep] using ht
  | cons r rs =>
    apply str_ne_empty_of_length
    have hlen : (t ++ sep ++ joinSep sep (r :: rs)).length =
        t.length + sep.length + (joinSep sep (r :: rs)).length := by
      simp [String.length_append]
    have ht2 := length_pos_of_ne_empty t ht
    rw [show joinSep sep (t :: r :: rs) = t ++ sep ++ joinSep sep (r :: rs) from rfl, hlen]
    omega

theorem contentStr_eq (sep : String) (ts : List String) :
    (if ts.length > 0 then joinSep sep ts else "") = joinSep sep ts := by
  cases ts <;> simp [joinSep]

theorem geminiTextParts_mem_ne (ps : List GeminiPart) :
    ∀ t ∈ geminiTextParts ps, t ≠ "" := by
  intro t ht
  simp only [geminiTextParts, List.mem_filterMap] at ht
  obtain ⟨p, hp, hsome⟩ := ht
  cases hpt : p.text with
  | none => rw [hpt] at hsome; simp at hsome
  | some t2 =>
    rw [hpt] at hsome
    by_cases h2 : t2 = ""
    · simp [h2] at hsome
    · simp [h2] at hsome
      exact hsome ▸ h2

theorem mkToolCalls_map_function (ids : Nat → String) :
    ∀ (k : Nat) (fcs : List FunctionCall),
      (mkToolCalls ids k fcs).map (fun tc => tc.function) =
        fcs.map (fun fc => ({ name := fc.name, arguments := stringifyJson fc.args } : OAIFunc)) := by
  intro k fcs
  induction fcs generalizing k with
  | nil => rfl
  | cons fc rest ih => simp [mkToolCalls, ih]

theorem mkToolCalls_length (ids : Nat → String) :
    ∀ (k : Nat) (fcs : List FunctionCall), (mkToolCalls ids k fcs).length = fcs.length := by
  intro k fcs
  induction fcs generalizing k with
  | nil => rfl
  | cons fc rest ih => simp [mkToolCalls, ih]

theorem mkGeminiMessage_role (ids : Nat → String) (k : Nat) (c : GeminiContent) :
    (mkGeminiMessage ids k c).role = geminiRole c.role := by
  by_cases h : (geminiCallParts c.parts).length > 0 <;> simp [mkGeminiMessage, h]

theorem mkGeminiMessage_content (ids : Nat → String) (k : Nat) (c : GeminiContent) :
    (mkGeminiMessage ids k c).content =
      if geminiCallParts c.parts ≠ [] ∧ geminiTextParts c.parts = [] then none
      else some (joinSep "\n" (geminiTextParts c.parts)) := by
  cases hc : geminiCallParts c.parts with
  | nil =>
    cases ht : geminiTextParts c.parts with
    | nil => simp [mkGeminiMessage, hc, ht, joinSep]
    | cons t ts2 => simp [mkGeminiMessage, hc, ht]
  | cons fc fcs2 =>
    cases ht : geminiTextParts c.parts with
    | nil => simp [mkGeminiMessage, hc, ht, joinSep]
    | cons t ts2 =>
      have htne : t ≠ "" :=
        geminiTextParts_mem_ne c.parts t (by rw [ht]; exact List.mem_cons_self t ts2)
      have hjoin := joinSep_head_ne "\n" t ts2 htne
      simp [mkGeminiMessage, hc, ht, hjoin]

theorem mkGeminiMessage_tool_calls (ids : Nat → String) (k : Nat) (c : GeminiContent) :
    (mkGeminiMessage ids k c).tool_calls =
      if geminiCallParts c.parts ≠ []
      then some (mkToolCalls ids k (geminiCallParts c.parts)) else none := by
  cases hc : geminiCallParts c.parts with
  | nil => simp [mkGeminiMessage, hc]
  | cons fc fcs2 => simp [mkGeminiMessage, hc]

theorem mapFinishReason_eq (r : String) :
    mapFinishReason r = if r = "length" then "MAX_TOKENS" else "STOP" := by
  by_cases h : r = "tool_calls"
  · subst h; simp [mapFinishReason]
  · simp [mapFinishReason, h]

theorem convertToolCalls_eq_mapM (l : List ToolCall) :
    convertToolCallsToAnthropic l =
      l.mapM (fun call => (parseJsonStr call.function.arguments).map
        (fun j => ClaudeBlock.toolUse call.id call.function.name j)) := by
  induction l with
  | nil => rfl
  | cons c l ih =>
    rw [List.mapM_cons]
    cases hp : parseJsonStr c.function.arguments with
    | none => simp [convertToolCallsToAnthropic, hp]
    | some j =>
      cases hr : convertToolCallsToAnthropic l with
      | none => rw [← ih]; simp [convertToolCallsToAnthropic, hp, hr]
      | some bs => rw [← ih]; simp [convertToolCallsToAnthropic, hp, hr]

/-! ## Claim theorems -/

/-- C1: the Claude-to-OpenAI request translation flattens block-sequence
content by mapping each block in order (text → its text; tool_use → the
marker `[Tool Use: <name>] ` followed by the JSON serialization of the
input; tool_result → the JSON serialization of the content wrapped in
`<tool_result>...</tool_result>`), joined with a newline, and copies
plain-string content and the role verbatim. -/
theorem c1_claude_request_flattening (msgs : List Message) :
    convertMessages msgs = msgs.map (fun m =>
      match m.content with
      | .str s => { role := m.role, content := s }
      | .blocks bs =>
        { role := m.role,
          content := joinSep "\n" (bs.map (fun b =>
            match b with
            | .text t => t
            | .toolUse _ name input =>
              "[Tool Use: " ++ name ++ "] " ++ stringifyJson input
            | .toolResult _ content =>
              "<tool_result>" ++ stringifyJson content ++ "</tool_result>")) }) := by
  have hfb : flattenBlock = (fun b : ClaudeBlock =>
      match b with
      | .text t => t
      | .toolUse _ name input => "[Tool Use: " ++ name ++ "] " ++ stringifyJson input
      | .toolResult _ content =>
        "<tool_result>" ++ stringifyJson content ++ "</tool_result>") := by
    funext b; cases b <;> rfl
  simp only [convertMessages, hfb]

/-- C7: the effective max-token value sent upstream is
`min(requested or ceiling, ceiling)`, never exceeds the ceiling, is
exactly what the Claude handler's upstream request carries, and yields
16384 for requested 20000 / ceiling 16384 and 1000 for requested 1000 /
ceiling 16384. -/
theorem c7_token_clamp (requested : Option Int) (ceiling : Int) (req : MessagesRequest)
    (p : Provider) (tm : String) :
    effectiveMaxTokens requested ceiling = min (jsOrNum requested ceiling) ceiling ∧
    effectiveMaxTokens requested ceiling ≤ ceiling ∧
    (claudeChatReqOf req p tm).max_tokens = effectiveMaxTokens req.max_tokens p.maxTokens ∧
    effectiveMaxTokens (some 20000) 16384 = 16384 ∧
    effectiveMaxTokens (some 1000) 16384 = 1000 := by
  refine ⟨rfl, min_le_right _ _, rfl, by decide, by decide⟩

/-- C8 counterexample: the claim says the empty-string header value is
returned verbatim, but `if (!authorization)` treats the empty string as
falsy, so the extractor returns the absent result instead. -/
theorem c8_counterexample :
    extractApiKey (some "") = none ∧ (none : Option String) ≠ some "" := by
  exact ⟨rfl, by decide⟩

/-- C8 (amended): an absent or empty header value yields an absent
result; a value beginning with the literal case-sensitive prefix
`Bearer ` (single space) yields the remainder after that prefix; any
other non-empty value is returned verbatim. -/
theorem c8_credential_extraction (s : String) :
    extractApiKey none = none ∧
    extractApiKey (some "") = none ∧
    (s ≠ "" → strStartsWith s "Bearer " = true →
      extractApiKey (some s) = some (strDrop s 7)) ∧
    (s ≠ "" → strStartsWith s "Bearer " = false → extractApiKey (some s) = some s) := by
  refine ⟨rfl, rfl, ?_, ?_⟩
  · intro h1 h2; simp [extractApiKey, h1, h2]
  · intro h1 h2; simp [extractApiKey, h1, h2]

/-- C8 witness: concrete evaluations of the amended contract. -/
theorem c8_credential_extraction_witness :
    (("Bearer abc" : String) ≠ "" ∧
      strStartsWith "Bearer abc" "Bearer " = true ∧
      extractApiKey (some "Bearer abc") = some (strDrop "Bearer abc" 7)) ∧
    (("xyz" : String) ≠ "" ∧
      strStartsWith "xyz" "Bearer " = false ∧
      extractApiKey (some "xyz") = some "xyz") :=
  ⟨⟨by decide, by decide,
    (c8_credential_extraction "Bearer abc").2.2.1 (by decide) (by decide)⟩,
   ⟨by decide, by decide,
    (c8_credential_extraction "xyz").2.2.2 (by decide) (by decide)⟩⟩

/-- C10: a requested max-token value of 0 is falsy in the
`requested || ceiling` expression, so both handlers send the provider
ceiling upstream, not 0. -/
theorem c10_zero_request_token (p : Provider) (req : MessagesRequest)
    (greq : GeminiRequest) (ids : Nat → String) (tm : String) :
    (req.max_tokens = some 0 → (claudeChatReqOf req p tm).max_tokens = p.maxTokens) ∧
    ((greq.generationConfig.bind fun g => g.maxOutputTokens) = some 0 →
      (geminiChatReqOf ids greq p tm).max_tokens = p.maxTokens) := by
  constructor
  · intro h
    simp [claudeChatReqOf, jsOrNum, h]
  · intro h
    have hmt : (convertGeminiToOpenAI ids greq).max_tokens =
        greq.generationConfig.bind fun g => g.maxOutputTokens := rfl
    simp [geminiChatReqOf, jsOrNum, hmt, h]

/-- C10 witness: both paths at requested 0 with ceiling 16384. -/
theorem c10_zero_request_token_witness :
    ({ model := "m", messages := [], max_tokens := some 0, temperature := none,
       tools := none, tool_choice := none } : MessagesRequest).max_tokens = some 0 ∧
    (claudeChatReqOf
      { model := "m", messages := [], max_tokens := some 0, temperature := none,
        tools := none, tool_choice := none }
      { name := "groq", baseURL := "u", models := [], maxTokens := 16384 }
      "tm").max_tokens = 16384 ∧
    (({ contents := [], generationConfig := some ⟨none, some 0⟩, tools := none } :
          GeminiRequest).generationConfig.bind fun g => g.maxOutputTokens) = some 0 ∧
    (geminiChatReqOf (fun _ => "r")
      { contents := [], generationConfig := some ⟨none, some 0⟩, tools := none }
      { name := "groq", baseURL := "u", models := [], maxTokens := 16384 }
      "tm").max_tokens = 16384 :=
  ⟨rfl,
   (c10_zero_request_token
     { name := "groq", baseURL := "u", models := [], maxTokens := 16384 }
     { model := "m", messages := [], max_tokens := some 0, temperature := none,
       tools := none, tool_choice := none }
     { contents := [], generationConfig := some ⟨none, some 0⟩, tools := none }
     (fun _ => "r") "tm").1 rfl,
   rfl,
   (c10_zero_request_token
     { name := "groq", baseURL := "u", models := [], maxTokens := 16384 }
     { model := "m", messages := [], max_tokens := some 0, temperature := none,
       tools := none, tool_choice := none }
     { contents := [], generationConfig := some ⟨none, some 0⟩, tools := none }
     (fun _ => "r") "tm").2 rfl⟩

/-- C2 counterexample: a present-but-empty `tool_calls` array is truthy
in JavaScript, so the handler emits an empty content list with
stop_reason `tool_use` instead of the claimed single TextBlock with
`end_turn`. -/
theorem c2_counterexample :
    claudeContentAndStop { content := some "hi", tool_calls := some [] } =
      some ([], "tool_use") ∧
    some (([] : List ClaudeBlock), "tool_use") ≠
      some ([ClaudeBlock.text "hi"], "end_turn") := by
  exact ⟨rfl, by decide⟩

/-- C2 (amended): if the message's `tool_calls` field is present
(non-null) — even when empty — the translation emits one ToolUseBlock
per call (id = call.id, name = call.function.name, input = the JSON
parse of call.function.arguments) with stop_reason `tool_use` (an empty
array yields an empty content list); only when the field is absent does
it emit exactly one TextBlock whose text is the message content or the
empty string, with stop_reason `end_turn`. -/
theorem c2_response_dispatch (msg : OAIRespMessage) :
    (∀ l, msg.tool_calls = some l →
      claudeContentAndStop msg =
        (convertToolCallsToAnthropic l).map (fun bs => (bs, "tool_use")) ∧
      convertToolCallsToAnthropic l =
        l.mapM (fun call => (parseJsonStr call.function.arguments).map
          (fun j => ClaudeBlock.toolUse call.id call.function.name j))) ∧
    (msg.tool_calls = none →
      claudeContentAndStop msg =
        some ([ClaudeBlock.text (msg.content.getD "")], "end_turn")) := by
  constructor
  · intro l hl
    refine ⟨?_, convertToolCalls_eq_mapM l⟩
    cases hc : convertToolCallsToAnthropic l with
    | none => simp [claudeContentAndStop, hl, hc]
    | some bs => simp [claudeContentAndStop, hl, hc]
  · intro h
    simp [claudeContentAndStop, h]

/-- C2 witness: the tool-use branch evaluated at a one-call message. -/
theorem c2_response_dispatch_witness :
    claudeContentAndStop
      { content := some "hi",
        tool_calls := some [⟨"c1", "function", ⟨"get_weather", "1"⟩⟩] } =
      (convertToolCallsToAnthropic [⟨"c1", "function", ⟨"get_weather", "1"⟩⟩]).map
        (fun bs => (bs, "tool_use")) :=
  ((c2_response_dispatch _).1 _ rfl).1

/-- C6: the Gemini response translation maps finish_reason `length` to
`MAX_TOKENS` and every other value (including `tool_calls` and `stop`)
to `STOP`; no other Gemini finish-reason value is ever produced. -/
theorem c6_finish_reason (resp : OAIResponse) (model : String) (g : GeminiResponse)
    (h : convertOpenAIToGemini resp model = some g) :
    (∀ cand ∈ g.candidates,
      cand.finishReason = "STOP" ∨ cand.finishReason = "MAX_TOKENS") ∧
    (∀ choice rest, resp.choices = choice :: rest →
      g.candidates.map (fun cand => cand.finishReason) =
        [if choice.finish_reason = "length" then "MAX_TOKENS" else "STOP"]) := by
  cases hch : resp.choices with
  | nil => rw [convertOpenAIToGemini, hch] at h; exact absurd h (by simp)
  | cons choice rest =>
    rw [convertOpenAIToGemini, hch] at h
    dsimp only at h
    have hg : g.candidates.map (fun cand => cand.finishReason) =
        [mapFinishReason choice.finish_reason] := by
      rcases hmt : (match choice.message.tool_calls with
          | some calls => toolCallsToParts calls
          | none => some []) with _ | callParts
      · rw [hmt] at h; exact absurd h (by simp)
      · rw [hmt] at h
        simp only [Option.some.injEq] at h
        rw [← h]
        simp
    constructor
    · intro cand hcand
      have : cand.finishReason ∈ g.candidates.map (fun cand => cand.finishReason) :=
        List.mem_map_of_mem _ hcand
      rw [hg] at this
      simp only [List.mem_singleton] at this
      rw [this, mapFinishReason_eq]
      by_cases hl : choice.finish_reason = "length" <;> simp [hl]
    · intro choice2 rest2 hch2
      injection hch2 with h1 h2
      rw [hg, ← h1, mapFinishReason_eq]

/-- C6 witness: a `length` completion converts to `MAX_TOKENS`. -/
theorem c6_finish_reason_witness :
    ((⟨[⟨⟨"model", [⟨some "x", none, none, none⟩]⟩, "MAX_TOKENS", 0⟩],
      ⟨0, 0, 0⟩, "m"⟩ : GeminiResponse).candidates.map (fun cand => cand.finishReason)) =
      [if ("length" : String) = "length" then "MAX_TOKENS" else "STOP"] :=
  (c6_finish_reason
    { choices := [⟨⟨some "x", none⟩, "length"⟩], usage := none }
    "m" _ rfl).2 ⟨⟨some "x", none⟩, "length"⟩ [] rfl

/-- C3: a Gemini `functionCall{name, args}` translated to an OpenAI tool
call (arguments = JSON serialization of args) and back through the
Gemini response translation yields a functionCall part with the same
name and args deep-equal to the original; the synthesized id is not
constrained. -/
theorem c3_gemini_roundtrip (n : String) (a : Json) (ids : Nat → String)
    (finish model : String) (u : Option Usage) :
    ∃ tc : ToolCall,
      (convertGeminiToOpenAI ids
        { contents := [⟨"user", [⟨none, none, some ⟨n, a⟩, none⟩]⟩] }).messages =
        [{ role := "user", content := none, tool_calls := some [tc] }] ∧
      tc.function.name = n ∧
      ∃ g, convertOpenAIToGemini
          { choices := [⟨⟨none, some [tc]⟩, finish⟩], usage := u } model = some g ∧
        g.candidates.map (fun cand => cand.content.parts.map (fun p => p.functionCall)) =
          [[some ⟨n, a⟩]] := by
  refine ⟨⟨"call_" ++ ids 0, "function", ⟨n, stringifyJson a⟩⟩, ?_, rfl, ?_⟩
  · simp [convertGeminiToOpenAI, convertContents, mkGeminiMessage, geminiTextParts,
      geminiCallParts, partTakesText, mkToolCalls, geminiRole]
  · have hparts : toolCallsToParts [⟨"call_" ++ ids 0, "function", ⟨n, stringifyJson a⟩⟩] =
        some [⟨none, none, some ⟨n, a⟩, none⟩] := by
      simp [toolCallsToParts, parseJsonStr_stringify a]
    refine ⟨⟨[⟨⟨"model", [⟨none, none, some ⟨n, a⟩, none⟩]⟩, mapFinishReason finish, 0⟩],
      ⟨(match u with | some uu => uu.prompt_tokens | none => 0),
       (match u with | some uu => uu.completion_tokens | none => 0),
       (match u with | some uu => uu.total_tokens | none => 0)⟩, model⟩, ?_, by simp⟩
    rw [convertOpenAIToGemini]
    dsimp only
    rw [hparts]
    rfl

/-- C4: whenever a Gemini content entry contributes at least one
translated function call, the produced OpenAI message carries a
non-empty `tool_calls` list with one entry per translated call in
order; its `content` is `null` exactly when the entry contributed no
(non-empty) text; and a message without (non-empty) `tool_calls` always
has string content. -/
theorem c4_gemini_message_invariant (ids : Nat → String) (k : Nat) (c : GeminiContent) :
    (geminiCallParts c.parts ≠ [] →
      (mkGeminiMessage ids k c).tool_calls =
        some (mkToolCalls ids k (geminiCallParts c.parts)) ∧
      mkToolCalls ids k (geminiCallParts c.parts) ≠ [] ∧
      (mkToolCalls ids k (geminiCallParts c.parts)).map (fun tc => tc.function) =
        (geminiCallParts c.parts).map
          (fun fc => ({ name := fc.name, arguments := stringifyJson fc.args } : OAIFunc))) ∧
    ((mkGeminiMessage ids k c).content = none ↔
      geminiCallParts c.parts ≠ [] ∧ geminiTextParts c.parts = []) ∧
    ((mkGeminiMessage ids k c).tool_calls = none ∨
        (mkGeminiMessage ids k c).tool_calls = some [] →
      ∃ s, (mkGeminiMessage ids k c).content = some s) := by
  refine ⟨?_, ?_, ?_⟩
  · intro hne
    refine ⟨by rw [mkGeminiMessage_tool_calls]; simp [hne], ?_,
      mkToolCalls_map_function ids k _⟩
    intro he
    have hl := mkToolCalls_length ids k (geminiCallParts c.parts)
    rw [he] at hl
    exact hne (List.length_eq_zero.mp hl.symm)
  · rw [mkGeminiMessage_content]
    by_cases h : geminiCallParts c.parts ≠ [] ∧ geminiTextParts c.parts = [] <;> simp [h]
  · intro htc
    by_cases hne : geminiCallParts c.parts ≠ []
    · rw [mkGeminiMessage_tool_calls, if_pos hne] at htc
      rcases htc with h1 | h1
      · exact absurd h1 (by simp)
      · simp only [Option.some.injEq] at h1
        have hl := mkToolCalls_length ids k (geminiCallParts c.parts)
        rw [h1] at hl
        exact absurd (List.length_eq_zero.mp hl.symm) hne
    · have hceq : geminiCallParts c.parts = [] := not_not.mp hne
      rw [mkGeminiMessage_content]
      simp [hceq]

/-- C4 witness: a content entry with exactly one functionCall part and
no text. -/
theorem c4_gemini_message_invariant_witness :
    geminiCallParts [(⟨none, none, some ⟨"f", Json.null⟩, none⟩ : GeminiPart)] ≠ [] ∧
    ((mkGeminiMessage (fun _ => "r") 0
        ⟨"user", [⟨none, none, some ⟨"f", Json.null⟩, none⟩]⟩).tool_calls =
      some (mkToolCalls (fun _ => "r") 0
        (geminiCallParts [⟨none, none, some ⟨"f", Json.null⟩, none⟩])) ∧
     mkToolCalls (fun _ => "r") 0
        (geminiCallParts [⟨none, none, some ⟨"f", Json.null⟩, none⟩]) ≠ [] ∧
     (mkToolCalls (fun _ => "r") 0
        (geminiCallParts [⟨none, none, some ⟨"f", Json.null⟩, none⟩])).map
          (fun tc => tc.function) =
       (geminiCallParts [(⟨none, none, some ⟨"f", Json.null⟩, none⟩ : GeminiPart)]).map
         (fun fc => ({ name := fc.name, arguments := stringifyJson fc.args } : OAIFunc))) :=
  ⟨by simp [geminiCallParts, partTakesText],
   (c4_gemini_message_invariant (fun _ => "r") 0
     ⟨"user", [⟨none, none, some ⟨"f", Json.null⟩, none⟩]⟩).1
     (by simp [geminiCallParts, partTakesText])⟩

theorem convertContents_role_content (ids : Nat → String) :
    ∀ (cs : List GeminiContent) (k : Nat),
      (convertContents ids k cs).map (fun m => (m.role, m.content)) =
        cs.map (fun c =>
          (geminiRole c.role,
           if geminiCallParts c.parts ≠ [] ∧ geminiTextParts c.parts = [] then none
           else some (joinSep "\n" (geminiTextParts c.parts)))) := by
  intro cs
  induction cs with
  | nil => intro k; rfl
  | cons c rest ih =>
    intro k
    simp only [convertContents, List.map_cons]
    rw [mkGeminiMessage_role, mkGeminiMessage_content, ih]

/-- C5 counterexample: a part whose `text` is the empty string is a text
part of the entry, but `if (part.text)` skips it, so the produced
content is the join of the non-empty texts only (`"a\nb"`), not the join
of all text parts (`"a\n\nb"`). -/
theorem c5_counterexample :
    (convertGeminiToOpenAI (fun _ => "r")
      { contents := [⟨"user",
          [⟨some "a", none, none, none⟩, ⟨some "", none, none, none⟩,
           ⟨some "b", none, none, none⟩]⟩] }).messages =
      [{ role := "user", content := some ("a" ++ "\n" ++ "b"), tool_calls := none }] ∧
    joinSep "\n" ["a", "", "b"] = "a" ++ "\n" ++ "" ++ "\n" ++ "b" ∧
    ("a" ++ "\n" ++ "b" : String) ≠ "a" ++ "\n" ++ "" ++ "\n" ++ "b" := by
  refine ⟨?_, by rfl, by decide⟩
  simp [convertGeminiToOpenAI, convertContents, mkGeminiMessage, geminiTextParts,
    geminiCallParts, partTakesText, joinSep, geminiRole]

/-- C5 (amended): the Gemini-to-OpenAI translation maps role `model` to
`assistant` and passes every other role through unchanged, preserves
the order of the contents list, and joins each entry's *non-empty* text
parts with a newline (parts whose text is absent or the empty string
are skipped); the two-content example translates exactly as claimed. -/
theorem c5_gemini_request_translation (ids : Nat → String) (req : GeminiRequest)
    (r : String) :
    geminiRole "model" = "assistant" ∧
    (r ≠ "model" → geminiRole r = r) ∧
    (convertGeminiToOpenAI ids req).messages.map (fun m => (m.role, m.content)) =
      req.contents.map (fun c =>
        (geminiRole c.role,
         if geminiCallParts c.parts ≠ [] ∧ geminiTextParts c.parts = [] then none
         else some (joinSep "\n" (geminiTextParts c.parts)))) ∧
    (convertGeminiToOpenAI ids
      { contents := [⟨"user", [⟨some "hi", none, none, none⟩]⟩,
                     ⟨"model", [⟨some "hello", none, none, none⟩]⟩] }).messages =
      [{ role := "user", content := some "hi", tool_calls := none },
       { role := "assistant", content := some "hello", tool_calls := none }] := by
  refine ⟨rfl, ?_, ?_, ?_⟩
  · intro h; simp [geminiRole, h]
  · exact convertContents_role_content ids req.contents 0
  · simp [convertGeminiToOpenAI, convertContents, mkGeminiMessage, geminiTextParts,
      geminiCallParts, partTakesText, joinSep, geminiRole]

/-- C5 witness: the pass-through clause at the role `user`. -/
theorem c5_gemini_request_translation_witness :
    geminiRole "user" = "user" :=
  (c5_gemini_request_translation (fun _ => "r") { contents := [] } "user").2.1 (by decide)

/-- C9 counterexample: a missing credential on the Gemini path is
answered with the flat `{error: string}` shape (line 426), not the
nested Gemini error envelope the claim requires. -/
theorem c9_counterexample :
    geminiHandler (fun _ => "r") none none "gemini-pro" { contents := [] }
        ⟨"groq", "u", [], 16384⟩ "tm" (fun _ => none) =
      .err 401 (.flat "Missing API key in Authorization header or x-goog-api-key header") ∧
    ¬∃ code msg status,
      geminiHandler (fun _ => "r") none none "gemini-pro" { contents := [] }
          ⟨"groq", "u", [], 16384⟩ "tm" (fun _ => none) =
        .err 401 (.nested code msg status) := by
  have h0 : geminiHandler (fun _ => "r") none none "gemini-pro" { contents := [] }
      ⟨"groq", "u", [], 16384⟩ "tm" (fun _ => none) =
      .err 401 (.flat "Missing API key in Authorization header or x-goog-api-key header") :=
    rfl
  refine ⟨h0, ?_⟩
  rintro ⟨code, msg, status, h⟩
  rw [h0] at h
  simp at h

/-- C9 (amended): every Claude-path failure (missing credential,
upstream failure, malformed tool-call arguments) is the flat
`{error: string}` shape; on the Gemini path the missing-credential
failure is also the flat shape while internal failures use the nested
`{error:{code, message, status}}` shape; and a missing credential on
either path yields the 401 failure for every request and upstream
function, i.e. before any translator or upstream call can matter. -/
theorem c9_error_shapes (uuid tm model : String) (authH bH : Option String)
    (creq : MessagesRequest) (greq : GeminiRequest) (p : Provider) (ids : Nat → String)
    (cu : ClaudeChatReq → Option OAIResponse) (gu : GeminiChatReq → Option OAIResponse) :
    (extractApiKey (jsOrStr authH bH) = none →
      claudeHandler uuid authH bH creq p tm cu =
        .err 401 (.flat "Missing API key in Authorization header or x-api-key header") ∧
      geminiHandler ids authH bH model greq p tm gu =
        .err 401 (.flat "Missing API key in Authorization header or x-goog-api-key header")) ∧
    (∀ st b, claudeHandler uuid authH bH creq p tm cu = .err st b → ∃ m, b = .flat m) ∧
    (∀ st b, geminiHandler ids authH bH model greq p tm gu = .err st b →
      b = .flat "Missing API key in Authorization header or x-goog-api-key header" ∨
      b = .nested 500 "Internal server error" "INTERNAL") := by
  refine ⟨?_, ?_, ?_⟩
  · intro h
    constructor
    · rw [claudeHandler, h]
    · rw [geminiHandler, h]
  · intro st b hb
    rw [claudeHandler] at hb
    cases hk : extractApiKey (jsOrStr authH bH) with
    | none =>
      rw [hk] at hb
      simp only [HandlerResult.err.injEq] at hb
      exact ⟨_, hb.2.symm⟩
    | some key =>
      rw [hk] at hb
      dsimp only at hb
      cases hu : cu (claudeChatReqOf creq p tm) with
      | none =>
        rw [hu] at hb
        simp only [HandlerResult.err.injEq] at hb
        exact ⟨_, hb.2.symm⟩
      | some completion =>
        rw [hu] at hb
        dsimp only at hb
        cases hch : completion.choices with
        | nil =>
          rw [hch] at hb
          simp only [HandlerResult.err.injEq] at hb
          exact ⟨_, hb.2.symm⟩
        | cons choice rest =>
          rw [hch] at hb
          dsimp only at hb
          cases hcs : claudeContentAndStop choice.message with
          | none =>
            rw [hcs] at hb
            simp only [HandlerResult.err.injEq] at hb
            exact ⟨_, hb.2.symm⟩
          | some pr =>
            rw [hcs] at hb
            exact absurd hb (by simp)
  · intro st b hb
    rw [geminiHandler] at hb
    cases hk : extractApiKey (jsOrStr authH bH) with
    | none =>
      rw [hk] at hb
      simp only [HandlerResult.err.injEq] at hb
      exact Or.inl hb.2.symm
    | some key =>
      rw [hk] at hb
      dsimp only at hb
      cases hu : gu (geminiChatReqOf ids greq p tm) with
      | none =>
        rw [hu] at hb
        simp only [HandlerResult.err.injEq] at hb
        exact Or.inr hb.2.symm
      | some completion =>
        rw [hu] at hb
        dsimp only at hb
        cases hcg : convertOpenAIToGemini completion model with
        | none =>
          rw [hcg] at hb
          simp only [HandlerResult.err.injEq] at hb
          exact Or.inr hb.2.symm
        | some g =>
          rw [hcg] at hb
          exact absurd hb (by simp)

/-- C9 witness: both handlers at a missing credential. -/
theorem c9_error_shapes_witness :
    claudeHandler "u1" none none ⟨"m", [], none, none, none, none⟩
        ⟨"groq", "u", [], 16384⟩ "tm" (fun _ => none) =
      .err 401 (.flat "Missing API key in Authorization header or x-api-key header") ∧
    geminiHandler (fun _ => "r") none none "g" { contents := [] }
        ⟨"groq", "u", [], 16384⟩ "tm" (fun _ => none) =
      .err 401 (.flat "Missing API key in Authorization header or x-goog-api-key header") :=
  (c9_error_shapes "u1" "tm" "g" none none ⟨"m", [], none, none, none, none⟩
    { contents := [] } ⟨"groq", "u", [], 16384⟩ (fun _ => "r")
    (fun _ => none) (fun _ => none)).1 rfl

end Proxy
